import Mathlib

/-!
Verification development for the EMC Trading inventory web system
(`src/script.js`).  The script keeps an in-memory list of inventory items
(`inventoryData`) and mutates it through UI handlers:

* `handleAddItem`            (add a new item after form validation)
* `handleStockUpdate`        (stock-in / stock-out of a selected item)
* `handleArchive`            (remove an item from the active list)
* `setReorderLevel`          (programmatic reorder-level edit)
* `enforceReorderCap`        (global reorder-level clamping sweep)

and renders a filtered/sorted projection of the list (`renderTable`).

This file is a shallow embedding of that logic.  Conventions:

* JS numbers that the script produces with `parseInt` are modelled as
  `Option Int`: `none` stands for `NaN` (the parse failed), `some n` for the
  parsed integer.
* Strings read from the DOM are modelled as the already-trimmed `String`
  values the handlers compute (`.value.trim()`).
* `new Date().toISOString().split("T")[0]` (the current date) and the
  timestamp fragment `Date.now().toString().slice(-4)` are inputs of the
  environment, so the corresponding operations take them as explicit
  parameters (`today : Date`, `suffix : String`).
* Dates are year/month/day triples; `dateVal` is the embedding of
  `new Date(s).getTime()`: a numeric value that is monotone in the calendar
  order of valid dates.
* `URL.createObjectURL(image)` yields an opaque handle derived from the
  chosen file; it is modelled as a tagged copy of the file name.
* Toast notifications relevant to the claims are modelled as `Toast`
  records; handler outcomes that the claims distinguish are modelled as
  small inductive outcome types mirroring the handler's control-flow
  branches.
* JS `Array.prototype.sort` (guaranteed stable) with a comparator `c` is
  modelled as a stable insertion sort using the relation
  `le a b := (c a b <= 0)`; both produce the unique stable ordering of the
  comparator.
-/

namespace EMC

/-- Calendar date (year, month, day), as carried by `lastUpdated`. -/
structure Date where
  y : Nat
  m : Nat
  d : Nat
deriving DecidableEq

/-- Embedding of `new Date(s).getTime()`: a numeric key monotone in the
calendar order of valid dates. -/
def dateVal (d : Date) : Nat := d.y * 10000 + d.m * 100 + d.d

/-- An inventory item record, as stored in `inventoryData`.  `quantity` is an
`Int` because nothing in the script forces it to stay non-negative;
`reorderLevel` is `Option Int` because the renderer guards it with
`typeof item.reorderLevel === 'number'`.  `dateAdded` is only present on
items created through the Add-Item dialog. -/
structure Item where
  id : String
  name : String
  category : String
  quantity : Int
  lastUpdated : Date
  reorderLevel : Option Int
  supplier : String
  unit : String
  imageName : Option String
  imageUrl : Option String
  dateAdded : Option String
deriving DecidableEq

/-- The initial value of `inventoryData` (script.js lines 27-37). -/
def initialInventory : List Item := [
  { id := "T003", name := "Steel Hammer", category := "Tools", quantity := 100,
    lastUpdated := ⟨2025, 11, 10⟩, reorderLevel := some 20, supplier := "ACME Tools",
    unit := "pcs", imageName := none, imageUrl := none, dateAdded := none },
  { id := "H001", name := "Hammer - Professional", category := "Tools", quantity := 45,
    lastUpdated := ⟨2025, 10, 13⟩, reorderLevel := some 20, supplier := "HammerCo",
    unit := "pcs", imageName := none, imageUrl := none, dateAdded := none },
  { id := "P002", name := "Premium Paint - Blue", category := "Paint", quantity := 8,
    lastUpdated := ⟨2025, 10, 12⟩, reorderLevel := some 20, supplier := "ColorWorks",
    unit := "liter", imageName := none, imageUrl := none, dateAdded := none },
  { id := "E001", name := "Electrical Wire 2.0mm", category := "Electrical", quantity := 200,
    lastUpdated := ⟨2025, 10, 12⟩, reorderLevel := some 20, supplier := "WireMakers",
    unit := "meter", imageName := none, imageUrl := none, dateAdded := none },
  { id := "T001", name := "Cement - Portland", category := "Construction", quantity := 320,
    lastUpdated := ⟨2025, 10, 11⟩, reorderLevel := some 20, supplier := "BuildSupplies",
    unit := "kg", imageName := none, imageUrl := none, dateAdded := none },
  { id := "E002", name := "Light Bulbs LED", category := "Electrical", quantity := 5,
    lastUpdated := ⟨2025, 10, 11⟩, reorderLevel := some 20, supplier := "BrightLights",
    unit := "box", imageName := none, imageUrl := none, dateAdded := none },
  { id := "P001", name := "Premium Paint - White", category := "Paint", quantity := 150,
    lastUpdated := ⟨2025, 10, 10⟩, reorderLevel := some 20, supplier := "ColorWorks",
    unit := "liter", imageName := none, imageUrl := none, dateAdded := none },
  { id := "H002", name := "Screwdriver Set", category := "Tools", quantity := 12,
    lastUpdated := ⟨2025, 10, 10⟩, reorderLevel := some 20, supplier := "ACME Tools",
    unit := "box", imageName := none, imageUrl := none, dateAdded := none },
  { id := "C001", name := "Steel Rods 10mm", category := "Construction", quantity := 0,
    lastUpdated := ⟨2025, 10, 9⟩, reorderLevel := some 20, supplier := "MetalWorks",
    unit := "pcs", imageName := none, imageUrl := none, dateAdded := none }
]

/-- `const DEFAULT_REORDER_LEVEL = 20` (script.js line 50). -/
def DEFAULT_REORDER_LEVEL : Int := 20

/-- The stock-status label computed by `getStockStatus` (script.js 122-137).
`outOfStock`, `lowStock`, `inStock` stand for the strings
`'Out of Stock'`, `'Low Stock'`, `'In Stock'`. -/
inductive StockStatus
  | outOfStock
  | lowStock
  | inStock
deriving DecidableEq

/-- `getStockStatus(quantity)` (script.js 122-137): `quantity === 0` yields
out-of-stock, otherwise `quantity < 20` yields low-stock, otherwise
in-stock. -/
def getStockStatus (quantity : Int) : StockStatus :=
  if quantity = 0 then StockStatus.outOfStock
  else if quantity < 20 then StockStatus.lowStock
  else StockStatus.inStock

/-- The sort columns the UI offers (`state.sortBy` takes the `data-sort`
values `id`, `name`, `quantity`, `lastUpdated`). -/
inductive SortKey
  | id
  | name
  | quantity
  | lastUpdated
deriving DecidableEq

/-- `state.sortOrder`: `'asc'` or `'desc'`. -/
inductive SortOrder
  | asc
  | desc
deriving DecidableEq

/-- The transient UI state consulted by `renderTable` (script.js 39-47):
search text, category filter, sort column and direction. -/
structure ViewState where
  searchQuery : String
  categoryFilter : String
  sortBy : SortKey
  sortOrder : SortOrder
deriving DecidableEq

/-- ASCII lower-casing of a string, the embedding of JS `toLowerCase()`
(character-wise, on the string's characters). -/
def lowerStr (s : String) : String := ⟨s.data.map Char.toLower⟩

/-- ASCII upper-casing of a string, the embedding of JS `toUpperCase()`. -/
def upperStr (s : String) : String := ⟨s.data.map Char.toUpper⟩

/-- `needle` occurs as a contiguous run inside `hay`
(the embedding of JS `hay.includes(needle)` on char lists). -/
def containsSub (needle : List Char) : List Char → Bool
  | [] => needle.isEmpty
  | c :: rest => needle.isPrefixOf (c :: rest) || containsSub needle rest

/-- `s.includes(q)` for strings. -/
def strIncludes (s q : String) : Bool := containsSub q.data s.data

/-- The filter predicate of `renderTable` (script.js 191-197):
the lower-cased search text must occur in the lower-cased id or name, and the
category must match unless the filter is `"all"`. -/
def renderFilter (vs : ViewState) (item : Item) : Bool :=
  let q := lowerStr vs.searchQuery
  (strIncludes (lowerStr item.id) q || strIncludes (lowerStr item.name) q) &&
    (vs.categoryFilter == "all" || item.category == vs.categoryFilter)

/-- Code-unit lexicographic order on char lists: the embedding of the JS
`<`/`>` comparison on strings. -/
def lexLe : List Char → List Char → Bool
  | [], _ => true
  | _ :: _, [] => false
  | a :: as, b :: bs =>
    if a.toNat < b.toNat then true
    else if b.toNat < a.toNat then false
    else lexLe as bs

/-- JS `a <= b` on strings. -/
def strLeB (a b : String) : Bool := lexLe a.data b.data

/-- Per-column not-greater relation of the `renderTable` comparator
(script.js 200-218): `lastUpdated` compares `getTime()` values, the string
columns `id`/`name` compare lower-cased, `quantity` compares numerically. -/
def keyLe (k : SortKey) (a b : Item) : Bool :=
  match k with
  | SortKey.id => strLeB (lowerStr a.id) (lowerStr b.id)
  | SortKey.name => strLeB (lowerStr a.name) (lowerStr b.name)
  | SortKey.quantity => decide (a.quantity ≤ b.quantity)
  | SortKey.lastUpdated => decide (dateVal a.lastUpdated ≤ dateVal b.lastUpdated)

/-- `comparator a b <= 0` for the `renderTable` comparator: with `'asc'` the
comparator returns `-1/1/0` as the key of `a` is below/above/equal to the key
of `b`, with `'desc'` the signs flip. -/
def jsLe (vs : ViewState) (a b : Item) : Bool :=
  match vs.sortOrder with
  | SortOrder.asc => keyLe vs.sortBy a b
  | SortOrder.desc => keyLe vs.sortBy b a

/-- Insert `a` into `l` before the first element it is `le`-below-or-tied
with.  Building block of the stable sort. -/
def orderedInsertB (le : Item → Item → Bool) (a : Item) : List Item → List Item
  | [] => [a]
  | b :: l => if le a b then a :: b :: l else b :: orderedInsertB le a l

/-- Stable insertion sort: the embedding of JS `Array.prototype.sort`
(stable per the ECMAScript specification) run with a comparator whose
"not greater" relation is `le`. -/
def insertionSortB (le : Item → Item → Bool) : List Item → List Item
  | [] => []
  | a :: l => orderedInsertB le a (insertionSortB le l)

/-- A rendered table row: the item together with the derived display
attributes (script.js 221-259). -/
structure Row where
  item : Item
  stockStatus : StockStatus
  needsReorder : Bool
deriving DecidableEq

/-- The effective reorder level used by the renderer (script.js 225):
`typeof item.reorderLevel === 'number' ? item.reorderLevel :
DEFAULT_REORDER_LEVEL`. -/
def effectiveReorderLevel (i : Item) : Int :=
  match i.reorderLevel with
  | some l => l
  | none => DEFAULT_REORDER_LEVEL

/-- Per-row derivation of `renderTable` (script.js 221-226): stock status
from `getStockStatus`, reorder flag `quantity <= reorder`. -/
def renderRow (i : Item) : Row :=
  { item := i,
    stockStatus := getStockStatus i.quantity,
    needsReorder := decide (i.quantity ≤ effectiveReorderLevel i) }

/-- The filter → sort → derive pipeline of `renderTable` (script.js
189-261), producing the rows in display order. -/
def renderRows (items : List Item) (vs : ViewState) : List Row :=
  ((insertionSortB (jsLe vs) (items.filter (renderFilter vs)))).map renderRow

/-- `renderTable` as a state transformer: it reads `inventoryData`, computes
the rows and writes them to the DOM, and never assigns `inventoryData`; the
returned first component is the store the script is left with. -/
def renderTable (store : List Item) (vs : ViewState) : List Item × List Row :=
  let filtered := store.filter (renderFilter vs)
  let sorted := insertionSortB (jsLe vs) filtered
  (store, sorted.map renderRow)

/-- A toast notification: `showToast(kind, title, ...)`. -/
structure Toast where
  kind : String
  title : String
deriving DecidableEq

/-- The Add-Item form contents as `handleAddItem` reads them
(script.js 375-382): text fields already trimmed, `quantity` and
`reorderLevel` the results of `parseInt` (`none` = `NaN`), `image` the chosen
file's name if any, `dateAdded` the raw date-input value (empty when unset). -/
structure Draft where
  name : String
  category : String
  quantity : Option Int
  supplier : String
  image : Option String
  dateAdded : String
  unit : String
  reorderLevel : Option Int
deriving DecidableEq

/-- The validation test of `handleAddItem` (script.js 385):
`!name || !category || isNaN(quantity) || !supplier || !dateAdded || !unit`. -/
def draftMissing (d : Draft) : Bool :=
  d.name == "" || d.category == "" || d.quantity.isNone ||
    d.supplier == "" || d.dateAdded == "" || d.unit == ""

/-- The reorder-level clamp of `handleAddItem` (script.js 395):
`(isNaN(v) || v < 0) ? DEFAULT_REORDER_LEVEL : Math.min(v, DEFAULT_REORDER_LEVEL)`. -/
def reorderLevelValue (r : Option Int) : Int :=
  match r with
  | none => DEFAULT_REORDER_LEVEL
  | some v => if v < 0 then DEFAULT_REORDER_LEVEL else min v DEFAULT_REORDER_LEVEL

/-- The id generator of `handleAddItem` (script.js 398):
first character of the category upper-cased, followed by the 4-digit
timestamp fragment `Date.now().toString().slice(-4)`. -/
def genId (category suffix : String) : String :=
  (match category.data with
   | [] => ""
   | c :: _ => upperStr ⟨[c]⟩) ++ suffix

/-- The per-item body of `enforceReorderCap` (script.js 556-562):
`parseInt` the stored level (`NaN` for a missing one), default invalid or
negative values to the cap, then clamp to the cap. -/
def clampReorder (r : Option Int) : Int :=
  match r with
  | none => DEFAULT_REORDER_LEVEL
  | some l => if l < 0 then DEFAULT_REORDER_LEVEL else min l DEFAULT_REORDER_LEVEL

/-- `enforceReorderCap()` (script.js 556-562): re-clamp every item's
reorder level. -/
def enforceReorderCap (store : List Item) : List Item :=
  store.map (fun i => { i with reorderLevel := some (clampReorder i.reorderLevel) })

/-- Outcome of `handleAddItem`: the validation toast, or the added record. -/
inductive AddOutcome
  | incompleteData
  | added (item : Item)
deriving DecidableEq

/-- The `newItem` object literal of `handleAddItem` (script.js 397-409),
for a draft whose quantity parsed to `q`. -/
def newItemOf (d : Draft) (suffix : String) (today : Date) (q : Int) : Item :=
  { id := genId d.category suffix,
    name := d.name,
    category := d.category,
    quantity := q,
    supplier := d.supplier,
    unit := d.unit,
    reorderLevel := some (reorderLevelValue d.reorderLevel),
    imageName := d.image,
    imageUrl := d.image.map (fun n => "objectURL:" ++ n),
    dateAdded := some d.dateAdded,
    lastUpdated := today }

/-- `handleAddItem()` (script.js 374-422).  `suffix` and `today` are the
environment inputs `Date.now().toString().slice(-4)` and the current date.
On validation failure nothing is inserted; on success the new record is
pushed and `enforceReorderCap` sweeps the whole list. -/
def handleAddItem (store : List Item) (d : Draft) (suffix : String) (today : Date) :
    List Item × AddOutcome :=
  if draftMissing d then (store, AddOutcome.incompleteData)
  else
    match d.quantity with
    | none => (store, AddOutcome.incompleteData)
    | some q =>
      (enforceReorderCap (store ++ [newItemOf d suffix today q]),
        AddOutcome.added (newItemOf d suffix today q))

/-- The two stock-dialog kinds: `'in'` and `'out'`. -/
inductive StockType
  | stockIn
  | stockOut
deriving DecidableEq

/-- Outcome of `handleStockUpdate`: the guard branches of script.js 459-515.
`noSelection` = no selected item (the dialog was never opened for a valid
id); `invalidAmount` = the 'Invalid Quantity' toast; `insufficientStock` =
the 'Insufficient Stock' toast plus the early return; `committed` = the
inventory was replaced and the success/warning toast shown, carrying the
updated record. -/
inductive StockOutcome
  | noSelection
  | invalidAmount
  | insufficientStock
  | committed (item : Item)
deriving DecidableEq

/-- `change = type === 'in' ? amount : -amount` (script.js 473). -/
def stockChange (type : StockType) (amount : Int) : Int :=
  match type with
  | StockType.stockIn => amount
  | StockType.stockOut => -amount

/-- The `inventoryData.map` callback of `handleStockUpdate`
(script.js 471-488): items with the selected id get the new quantity and a
fresh `lastUpdated`, unless a stock-out would go negative, in which case the
original item is kept. -/
def stockApply (selected : Item) (type : StockType) (amount : Int) (today : Date)
    (item : Item) : Item :=
  if item.id == selected.id then
    if type = StockType.stockOut ∧ item.quantity + stockChange type amount < 0 then item
    else { item with quantity := item.quantity + stockChange type amount, lastUpdated := today }
  else item

/-- `handleStockUpdate(type)` (script.js 459-515), composed with the
`showStockDialog` lookup that selects the item (script.js 429-452): the
selected item is the first one whose id matches, the amount is the
`parseInt` of the dialog input, `today` is the current date.  Follows the
script's branches: missing selection returns silently; non-positive or `NaN`
amounts toast 'Invalid Quantity'; a prevented stock-out leaves
`inventoryData` unassigned; otherwise the mapped list is committed. -/
def handleStockUpdate (store : List Item) (type : StockType) (itemId : String)
    (amount : Option Int) (today : Date) : List Item × StockOutcome :=
  match store.find? (fun i => i.id == itemId) with
  | none => (store, StockOutcome.noSelection)
  | some selected =>
    match amount with
    | none => (store, StockOutcome.invalidAmount)
    | some amt =>
      if amt ≤ 0 then (store, StockOutcome.invalidAmount)
      else
        match (store.map (stockApply selected type amt today)).find?
            (fun i => i.id == selected.id) with
        | none => (store, StockOutcome.noSelection)
        | some itemAfterUpdate =>
          if itemAfterUpdate.quantity = selected.quantity ∧
              type = StockType.stockOut ∧ selected.quantity < amt then
            (store, StockOutcome.insufficientStock)
          else
            (store.map (stockApply selected type amt today),
              StockOutcome.committed itemAfterUpdate)

/-- `handleArchive(itemId)` (script.js 521-530), after the user confirmed:
if an item with the id exists, every item with that id is filtered out and a
success toast names the removed record; otherwise nothing at all happens —
no store change and no notification. -/
def handleArchive (store : List Item) (itemId : String) : List Item × List Toast :=
  match store.find? (fun item => item.id == itemId) with
  | some archivedItem =>
    (store.filter (fun item => !(item.id == itemId)),
      [{ kind := "success", title := archivedItem.name ++ " archived successfully!" }])
  | none => (store, [])

/-- Outcome of `setReorderLevel`: the console-warn branches and the success
path of script.js 568-582. -/
inductive SetReorderOutcome
  | invalidLevel
  | itemNotFound
  | updated
deriving DecidableEq

/-- Replace the first item satisfying `p` by its `f`-image: the embedding of
mutating the object returned by `inventoryData.find(...)` in place. -/
def updateFirst (p : Item → Bool) (f : Item → Item) : List Item → List Item
  | [] => []
  | i :: rest => if p i then f i :: rest else i :: updateFirst p f rest

/-- `setReorderLevel(itemId, level)` (script.js 568-582): a `NaN` or negative
parsed level is rejected with a console warning and no change; otherwise the
level is capped with `Math.min(·, DEFAULT_REORDER_LEVEL)` and written onto
the first item with the given id; a missing id warns 'Item not found'. -/
def setReorderLevel (store : List Item) (itemId : String) (level : Option Int) :
    List Item × SetReorderOutcome :=
  match level with
  | none => (store, SetReorderOutcome.invalidLevel)
  | some lvlParsed =>
    if lvlParsed < 0 then (store, SetReorderOutcome.invalidLevel)
    else
      let capped := min lvlParsed DEFAULT_REORDER_LEVEL
      match store.find? (fun i => i.id == itemId) with
      | none => (store, SetReorderOutcome.itemNotFound)
      | some _ =>
        (updateFirst (fun i => i.id == itemId)
          (fun i => { i with reorderLevel := some capped }) store,
         SetReorderOutcome.updated)

/-- A store operation, with the environment inputs (timestamp fragment,
current date) it consumes. -/
inductive Op
  | add (d : Draft) (suffix : String) (today : Date)
  | stockIn (itemId : String) (amount : Option Int) (today : Date)
  | stockOut (itemId : String) (amount : Option Int) (today : Date)
  | setReorder (itemId : String) (level : Option Int)
  | archive (itemId : String)

/-- The store reached by running one operation. -/
def applyOp (store : List Item) : Op → List Item
  | Op.add d suffix today => (handleAddItem store d suffix today).1
  | Op.stockIn itemId amount today =>
      (handleStockUpdate store StockType.stockIn itemId amount today).1
  | Op.stockOut itemId amount today =>
      (handleStockUpdate store StockType.stockOut itemId amount today).1
  | Op.setReorder itemId level => (setReorderLevel store itemId level).1
  | Op.archive itemId => (handleArchive store itemId).1

/-- The store reached by running a sequence of operations. -/
def applyOps (store : List Item) (ops : List Op) : List Item :=
  ops.foldl applyOp store

/-- The ids of a store, in order. -/
def idsOf (store : List Item) : List String := store.map Item.id

/-- An operation whose add-draft (if any) carries a non-negative parsed
quantity. -/
def opQtyOk (op : Op) : Bool :=
  match op with
  | Op.add d _ _ =>
    match d.quantity with
    | none => true
    | some q => decide (0 ≤ q)
  | _ => true

/-- The generated id of an add operation is not already present in `store`
(vacuously true for rejected drafts and for the other operations). -/
def freshOp (store : List Item) (op : Op) : Bool :=
  match op with
  | Op.add d suffix _ => draftMissing d || !((idsOf store).contains (genId d.category suffix))
  | _ => true

/-- Every add along the run of `ops` from `store` generates an id that is
fresh at the moment it runs. -/
def freshAlong (store : List Item) : List Op → Bool
  | [] => true
  | op :: rest => freshOp store op && freshAlong (applyOp store op) rest

/-- Modelled from the spec: the filter step of the View Projector (§4.2
step 1): keep an item iff (`categoryFilter == "all"` or the category
matches) and (the search query is empty or is a case-insensitive substring
of the item's id or name). -/
def specFilter (vs : ViewState) (item : Item) : Bool :=
  (vs.categoryFilter == "all" || item.category == vs.categoryFilter) &&
    (vs.searchQuery == "" ||
      strIncludes (lowerStr item.id) (lowerStr vs.searchQuery) ||
      strIncludes (lowerStr item.name) (lowerStr vs.searchQuery))

/-- Modelled from the spec: the per-column comparison of the View Projector
(§4.2 step 2): date fields compare by calendar value, string fields compare
case-insensitively, numeric fields compare numerically. -/
def specKeyLe (k : SortKey) (a b : Item) : Bool :=
  match k with
  | SortKey.id => strLeB (lowerStr a.id) (lowerStr b.id)
  | SortKey.name => strLeB (lowerStr a.name) (lowerStr b.name)
  | SortKey.quantity => decide (a.quantity ≤ b.quantity)
  | SortKey.lastUpdated => decide (dateVal a.lastUpdated ≤ dateVal b.lastUpdated)

/-- Modelled from the spec: the keep-a-no-later-than-b relation of the
stable sort, ascending or descending per `sortOrder` (§4.2 step 2). -/
def specLe (vs : ViewState) (a b : Item) : Bool :=
  match vs.sortOrder with
  | SortOrder.asc => specKeyLe vs.sortBy a b
  | SortOrder.desc => specKeyLe vs.sortBy b a

/-- Modelled from the spec: the per-row derivation of the View Projector
(§4.2 step 3): `OutOfStock` iff the quantity is zero, `LowStock` iff it is
strictly between 0 and 20, else `InStock`; `needsReorder` iff the quantity
is at most the effective reorder level (the item's level if present, else
the global default cap). -/
def specRow (i : Item) : Row :=
  { item := i,
    stockStatus :=
      if i.quantity = 0 then StockStatus.outOfStock
      else if 0 < i.quantity ∧ i.quantity < 20 then StockStatus.lowStock
      else StockStatus.inStock,
    needsReorder := decide (i.quantity ≤ effectiveReorderLevel i) }

/-- Modelled from the spec: `project(items, viewState)` (§4.2): filter, then
stable-sort (ties keep the filter-stage relative order), then derive the
display attributes per row. -/
def projectSpec (items : List Item) (vs : ViewState) : List Row :=
  (insertionSortB (specLe vs) (items.filter (specFilter vs))).map specRow

/-- Concrete fixture: a draft that passes the script's validation while
carrying a negative parsed quantity. -/
def dNegQty : Draft :=
  { name := "Widget", category := "Tools", quantity := some (-5),
    supplier := "S", image := none, dateAdded := "2025-12-01", unit := "pcs",
    reorderLevel := none }

/-- Concrete fixture: a fully valid draft. -/
def dValid : Draft :=
  { name := "Wood Glue", category := "Construction", quantity := some 30,
    supplier := "GlueCo", image := none, dateAdded := "2025-12-01", unit := "pcs",
    reorderLevel := some 7 }

/-- Concrete fixture: a valid Tools draft (first of a colliding pair). -/
def dToolsA : Draft :=
  { name := "Allen Key", category := "Tools", quantity := some 1,
    supplier := "S", image := none, dateAdded := "2025-12-01", unit := "pcs",
    reorderLevel := some 5 }

/-- Concrete fixture: a valid Tools draft (second of a colliding pair). -/
def dToolsB : Draft :=
  { name := "Torx Key", category := "Tools", quantity := some 2,
    supplier := "S", image := none, dateAdded := "2025-12-01", unit := "pcs",
    reorderLevel := some 6 }

/-- Concrete fixture: the P002 record of the initial inventory. -/
def itemP002 : Item :=
  { id := "P002", name := "Premium Paint - Blue", category := "Paint", quantity := 8,
    lastUpdated := ⟨2025, 10, 12⟩, reorderLevel := some 20, supplier := "ColorWorks",
    unit := "liter", imageName := none, imageUrl := none, dateAdded := none }

/-- Concrete fixture: the T003 record of the initial inventory. -/
def itemT003 : Item :=
  { id := "T003", name := "Steel Hammer", category := "Tools", quantity := 100,
    lastUpdated := ⟨2025, 11, 10⟩, reorderLevel := some 20, supplier := "ACME Tools",
    unit := "pcs", imageName := none, imageUrl := none, dateAdded := none }

/-- Concrete fixture: a view state sorting everything by quantity,
ascending. -/
def vsQuantityAsc : ViewState :=
  { searchQuery := "", categoryFilter := "all", sortBy := SortKey.quantity,
    sortOrder := SortOrder.asc }

/-- An item whose reorder level is present and lies in
`[0, DEFAULT_REORDER_LEVEL]`. -/
def reorderOkB (i : Item) : Bool :=
  match i.reorderLevel with
  | none => false
  | some l => decide (0 ≤ l) && decide (l ≤ DEFAULT_REORDER_LEVEL)

theorem containsSub_nil (hay : List Char) : containsSub [] hay = true := by
  cases hay <;> simp [containsSub, List.isPrefixOf]

theorem orderedInsertB_perm (le : Item → Item → Bool) (a : Item) (l : List Item) :
    List.Perm (orderedInsertB le a l) (a :: l) := by
  induction l with
  | nil => simp [orderedInsertB]
  | cons b t ih =>
    simp only [orderedInsertB]
    split
    · exact List.Perm.refl _
    · exact (List.Perm.cons b ih).trans (List.Perm.swap a b t)

theorem insertionSortB_perm (le : Item → Item → Bool) (l : List Item) :
    List.Perm (insertionSortB le l) l := by
  induction l with
  | nil => exact List.Perm.refl _
  | cons a t ih => exact (orderedInsertB_perm le a (insertionSortB le t)).trans (List.Perm.cons a ih)

theorem updateFirst_eq_of_none (p : Item → Bool) (f : Item → Item) :
    ∀ l : List Item, l.find? p = none → updateFirst p f l = l := by
  intro l h
  induction l with
  | nil => rfl
  | cons a t ih =>
    cases hp : p a with
    | true => simp [List.find?_cons, hp] at h
    | false =>
      simp only [List.find?_cons, hp] at h
      simp [updateFirst, hp, ih h]

theorem reorderLevelValue_mem (r : Option Int) :
    0 ≤ reorderLevelValue r ∧ reorderLevelValue r ≤ DEFAULT_REORDER_LEVEL := by
  cases r with
  | none => simp [reorderLevelValue, DEFAULT_REORDER_LEVEL]
  | some v =>
    simp only [reorderLevelValue, DEFAULT_REORDER_LEVEL]
    split
    · omega
    · rw [min_def]
      split <;> omega

theorem clampReorder_mem (r : Option Int) :
    0 ≤ clampReorder r ∧ clampReorder r ≤ DEFAULT_REORDER_LEVEL := by
  cases r with
  | none => simp [clampReorder, DEFAULT_REORDER_LEVEL]
  | some v =>
    simp only [clampReorder, DEFAULT_REORDER_LEVEL]
    split
    · omega
    · rw [min_def]
      split <;> omega

/-- Claim C10: the projection is read-only — rendering the table computes
the filtered/sorted/derived rows but returns the inventory list exactly as
it was (same items, same field values, same order); `renderTable` never
writes `inventoryData`. -/
theorem C10_projection_readonly : ∀ (store : List Item) (vs : ViewState),
    (renderTable store vs).1 = store ∧ (renderTable store vs).2 = renderRows store vs :=
  fun _ _ => ⟨rfl, rfl⟩

/-- Claim C9 (counterexample): archiving an id that resolves to no item does
not fail with `ItemNotFound` — the handler leaves the store untouched and
emits no notification whatsoever (the toast list is empty), so no error is
surfaced. -/
theorem C9_counterexample : handleArchive initialInventory ("Z9") = (initialInventory, []) := by
  decide

/-- Claim C9 (amended): `archive(itemId)` removes exactly the items with
that id (one, when ids are unique), leaves every other item unchanged and
reports success naming the removed record; when no item has that id it is a
silent no-op: the store is unchanged and no notification is emitted. -/
theorem C9_archive_amended : ∀ (store : List Item) (itemId : String),
    (store.find? (fun i => i.id == itemId) = none → handleArchive store itemId = (store, [])) ∧
    (∀ it, store.find? (fun i => i.id == itemId) = some it →
      handleArchive store itemId =
        (store.filter (fun i => !(i.id == itemId)),
         [{ kind := "success", title := it.name ++ " archived successfully!" }])) := by
  intro store itemId
  constructor
  · intro h
    simp [handleArchive, h]
  · intro it h
    simp [handleArchive, h]

/-- Witness for C9 (amended): archiving `T003` from the initial inventory. -/
theorem C9_archive_amended_witness :
    initialInventory.find? (fun i => i.id == "T003") = some itemT003 ∧
    handleArchive initialInventory ("T003") =
      (initialInventory.filter (fun i => !(i.id == "T003")),
       [{ kind := "success", title := itemT003.name ++ " archived successfully!" }]) :=
  ⟨by decide, (C9_archive_amended initialInventory ("T003")).2 itemT003 (by decide)⟩

/-- Claim C3 (counterexample): a draft with parsed quantity `-5` (not a
non-negative integer) passes `handleAddItem`'s validation and is inserted:
the outcome is not the validation failure, the store grows by one item, and
the appended record's quantity is `-5`. -/
theorem C3_counterexample :
    (handleAddItem initialInventory dNegQty ("0001") ⟨2025, 12, 1⟩).2 ≠ AddOutcome.incompleteData ∧
    (handleAddItem initialInventory dNegQty ("0001") ⟨2025, 12, 1⟩).1.length =
      initialInventory.length + 1 ∧
    ((handleAddItem initialInventory dNegQty ("0001") ⟨2025, 12, 1⟩).1.getLast?).map Item.quantity =
      some (-5) := by
  decide

/-- Claim C3 (amended): `handleAddItem` fails (inserting nothing) exactly
when `name`, `category`, `supplier`, `unit` or the raw date string is empty
or the quantity fails to parse — negative quantities are accepted and the
date is never parsed.  On success it appends exactly one new record (and
re-runs the global reorder-cap sweep); that record's quantity equals the
parsed input exactly, its id is the uppercased first letter of the category
followed by the timestamp-derived 4-digit suffix, its `lastUpdated` is the
creation date, and its reorder level lies in `[0, DEFAULT_REORDER_LEVEL]`. -/
theorem C3_addItem_amended : ∀ (store : List Item) (d : Draft) (suffix : String) (today : Date),
    ((handleAddItem store d suffix today).2 = AddOutcome.incompleteData ↔ draftMissing d = true) ∧
    (draftMissing d = true → (handleAddItem store d suffix today).1 = store) ∧
    (∀ q, d.quantity = some q → draftMissing d = false →
      handleAddItem store d suffix today =
        (enforceReorderCap (store ++ [newItemOf d suffix today q]),
         AddOutcome.added (newItemOf d suffix today q)) ∧
      (newItemOf d suffix today q).quantity = q ∧
      (newItemOf d suffix today q).id = genId d.category suffix ∧
      (newItemOf d suffix today q).lastUpdated = today ∧
      (newItemOf d suffix today q).reorderLevel = some (reorderLevelValue d.reorderLevel) ∧
      0 ≤ reorderLevelValue d.reorderLevel ∧
      reorderLevelValue d.reorderLevel ≤ DEFAULT_REORDER_LEVEL) := by
  intro store d suffix today
  refine ⟨?_, ?_, ?_⟩
  · cases hd : draftMissing d with
    | true => simp [handleAddItem, hd]
    | false =>
      cases hq : d.quantity with
      | none => simp [draftMissing, hq] at hd
      | some q => simp [handleAddItem, hd, hq]
  · intro hd
    simp [handleAddItem, hd]
  · intro q hq hd
    refine ⟨by simp [handleAddItem, hd, hq], rfl, rfl, rfl, rfl, ?_, ?_⟩
    · exact (reorderLevelValue_mem d.reorderLevel).1
    · exact (reorderLevelValue_mem d.reorderLevel).2

/-- Witness for C3 (amended): adding the valid fixture draft. -/
theorem C3_addItem_amended_witness :
    dValid.quantity = some 30 ∧ draftMissing dValid = false ∧
    handleAddItem initialInventory dValid ("4321") ⟨2025, 12, 1⟩ =
      (enforceReorderCap (initialInventory ++ [newItemOf dValid ("4321") ⟨2025, 12, 1⟩ 30]),
       AddOutcome.added (newItemOf dValid ("4321") ⟨2025, 12, 1⟩ 30)) :=
  ⟨by decide, by decide,
    ((C3_addItem_amended initialInventory dValid ("4321") ⟨2025, 12, 1⟩).2.2 30
      (by decide) (by decide)).1⟩

/-- Claim C7 (counterexample): for the input level `-1`, `setReorderLevel`
does not store what `handleAddItem` would store: after setting `T003`'s
level to 5, a `setReorderLevel` call with `-1` is rejected and leaves 5 in
place, while `handleAddItem`'s clamp turns the same input into the cap 20. -/
theorem C7_counterexample :
    (setReorderLevel (applyOps initialInventory [Op.setReorder ("T003") (some 5)]) "T003"
        (some (-1))).1 =
      applyOps initialInventory [Op.setReorder ("T003") (some 5)] ∧
    ((applyOps initialInventory [Op.setReorder ("T003") (some 5)]).find?
        (fun i => i.id == "T003")).map Item.reorderLevel = some (some 5) ∧
    reorderLevelValue (some (-1)) = 20 := by
  decide

/-- Claim C7 (amended): for a parsed level `l >= 0`, `setReorderLevel`
stores `min l DEFAULT_REORDER_LEVEL` on the first item with the id — the
same value `handleAddItem`'s clamp produces for that input — and fails with
the item-not-found warning when no item has the id; but a `NaN` or negative
level is rejected with no change (unlike `handleAddItem`, which defaults it
to the cap). -/
theorem C7_setReorder_amended : ∀ (store : List Item) (itemId : String) (level : Option Int),
    (∀ l, level = some l → 0 ≤ l →
      (setReorderLevel store itemId level).1 =
        updateFirst (fun i => i.id == itemId)
          (fun i => { i with reorderLevel := some (min l DEFAULT_REORDER_LEVEL) }) store ∧
      reorderLevelValue level = min l DEFAULT_REORDER_LEVEL) ∧
    ((level = none ∨ ∃ l, level = some l ∧ l < 0) →
      setReorderLevel store itemId level = (store, SetReorderOutcome.invalidLevel)) ∧
    (∀ l, level = some l → 0 ≤ l → store.find? (fun i => i.id == itemId) = none →
      setReorderLevel store itemId level = (store, SetReorderOutcome.itemNotFound)) := by
  intro store itemId level
  refine ⟨?_, ?_, ?_⟩
  · rintro l rfl hl
    constructor
    · cases hf : store.find? (fun i => i.id == itemId) with
      | none =>
        simp only [setReorderLevel, hf]
        rw [if_neg (by omega)]
        exact (updateFirst_eq_of_none _ _ store hf).symm
      | some it =>
        simp only [setReorderLevel, hf]
        rw [if_neg (by omega)]
    · simp only [reorderLevelValue]
      rw [if_neg (by omega)]
  · rintro (rfl | ⟨l, rfl, hl⟩)
    · rfl
    · simp only [setReorderLevel]
      rw [if_pos hl]
  · rintro l rfl hl hf
    simp only [setReorderLevel, hf]
    rw [if_neg (by omega)]

/-- Witness for C7 (amended): setting `T003`'s level to 500 clamps to 20. -/
theorem C7_setReorder_amended_witness :
    (setReorderLevel initialInventory ("T003") (some 500)).1 =
      updateFirst (fun i => i.id == "T003")
        (fun i => { i with reorderLevel := some (min 500 DEFAULT_REORDER_LEVEL) })
        initialInventory ∧
    reorderLevelValue (some 500) = min 500 DEFAULT_REORDER_LEVEL :=
  (C7_setReorder_amended initialInventory ("T003") (some 500)).1 500 rfl (by decide)

theorem stockApply_id (sel : Item) (t : StockType) (amt : Int) (td : Date) (i : Item) :
    (stockApply sel t amt td i).id = i.id := by
  unfold stockApply
  split
  · split <;> rfl
  · rfl

theorem stockApply_reorderLevel (sel : Item) (t : StockType) (amt : Int) (td : Date) (i : Item) :
    (stockApply sel t amt td i).reorderLevel = i.reorderLevel := by
  unfold stockApply
  split
  · split <;> rfl
  · rfl

theorem stockApply_ne (sel : Item) (t : StockType) (amt : Int) (td : Date) (j : Item)
    (h : ¬ j.id = sel.id) : stockApply sel t amt td j = j := by
  simp [stockApply, h]

theorem stockApply_self_out_reject (sel : Item) (amt : Int) (td : Date)
    (h : sel.quantity < amt) : stockApply sel StockType.stockOut amt td sel = sel := by
  simp only [stockApply, stockChange]
  rw [if_pos (by simp), if_pos ⟨by trivial, by omega⟩]

theorem stockApply_self_out_commit (sel : Item) (amt : Int) (td : Date)
    (h : amt ≤ sel.quantity) :
    stockApply sel StockType.stockOut amt td sel =
      { sel with quantity := sel.quantity - amt, lastUpdated := td } := by
  simp only [stockApply, stockChange]
  rw [if_pos (by simp), if_neg (by rintro ⟨-, hx⟩; omega),
    show sel.quantity + -amt = sel.quantity - amt by omega]

theorem stockApply_self_in (sel : Item) (amt : Int) (td : Date) :
    stockApply sel StockType.stockIn amt td sel =
      { sel with quantity := sel.quantity + amt, lastUpdated := td } := by
  simp only [stockApply, stockChange]
  rw [if_pos (by simp), if_neg (by rintro ⟨hx, -⟩; exact StockType.noConfusion hx)]

theorem find?_map_of_pres (f : Item → Item) (p : Item → Bool) (hp : ∀ i, p (f i) = p i) :
    ∀ l : List Item, (l.map f).find? p = (l.find? p).map f := by
  intro l
  induction l with
  | nil => rfl
  | cons a t ih =>
    simp only [List.map_cons, List.find?, hp a]
    cases p a
    · simpa using ih
    · simp

theorem eq_of_mem_of_same_id {store : List Item} (hnd : (store.map Item.id).Nodup)
    {a b : Item} (ha : a ∈ store) (hb : b ∈ store) (hid : a.id = b.id) : a = b :=
  List.inj_on_of_nodup_map hnd ha hb hid

/-- Claim C2: on a store with distinct ids, stocking out more than the
targeted item's quantity fails with the insufficient-stock branch and leaves
the whole store exactly unchanged; stocking out at most the quantity commits
the decrement and refreshes `lastUpdated` to the current date, leaving every
other item unchanged. -/
theorem C2_stockOut (store : List Item) (itemId : String) (item : Item) (amt : Int)
    (today : Date) (hnd : (store.map Item.id).Nodup)
    (hfind : store.find? (fun i => i.id == itemId) = some item) (hpos : 0 < amt) :
    (item.quantity < amt →
      handleStockUpdate store StockType.stockOut itemId (some amt) today =
        (store, StockOutcome.insufficientStock)) ∧
    (amt ≤ item.quantity →
      handleStockUpdate store StockType.stockOut itemId (some amt) today =
        (store.map (fun i => if i.id == itemId then
            { i with quantity := i.quantity - amt, lastUpdated := today } else i),
         StockOutcome.committed
           { item with quantity := item.quantity - amt, lastUpdated := today })) := by
  have hmem : item ∈ store := List.mem_of_find?_eq_some hfind
  have hid : item.id = itemId := by
    have := List.find?_some hfind
    simpa using this
  have huniq : ∀ j ∈ store, j.id = itemId → j = item := fun j hj hjid =>
    eq_of_mem_of_same_id hnd hj hmem (hjid.trans hid.symm)
  have hpred : (fun (i : Item) => i.id == item.id) = (fun i => i.id == itemId) := by
    funext i
    rw [hid]
  constructor
  · intro hlt
    have hmap : store.map (stockApply item StockType.stockOut amt today) = store := by
      have hpt : ∀ j ∈ store, stockApply item StockType.stockOut amt today j = id j := by
        intro j hj
        by_cases hjid : j.id = item.id
        · rw [huniq j hj (hjid.trans hid)]
          exact stockApply_self_out_reject item amt today hlt
        · exact stockApply_ne item StockType.stockOut amt today j hjid
      rw [List.map_congr_left hpt, List.map_id]
    have hfm : (store.map (stockApply item StockType.stockOut amt today)).find?
        (fun i => i.id == item.id) = some item := by
      rw [hmap, hpred]
      exact hfind
    simp only [handleStockUpdate, hfind]
    rw [if_neg (by omega)]
    simp only [hfm]
    rw [if_pos ⟨by trivial, by trivial, hlt⟩]
  · intro hle
    have hpt : ∀ j ∈ store, stockApply item StockType.stockOut amt today j =
        if j.id == itemId then
          { j with quantity := j.quantity - amt, lastUpdated := today } else j := by
      intro j hj
      by_cases hjid : j.id = itemId
      · rw [if_pos (by simp [hjid]), huniq j hj hjid]
        exact stockApply_self_out_commit item amt today hle
      · rw [if_neg (by simp [hjid]),
          stockApply_ne item StockType.stockOut amt today j (by rw [hid]; exact hjid)]
    have hmape : store.map (stockApply item StockType.stockOut amt today) =
        store.map (fun i => if i.id == itemId then
          { i with quantity := i.quantity - amt, lastUpdated := today } else i) :=
      List.map_congr_left hpt
    have hfm : (store.map (stockApply item StockType.stockOut amt today)).find?
        (fun i => i.id == item.id) =
        some { item with quantity := item.quantity - amt, lastUpdated := today } := by
      rw [find?_map_of_pres _ _ (fun i => by rw [stockApply_id]), hpred, hfind,
        Option.map_some', stockApply_self_out_commit item amt today hle]
    simp only [handleStockUpdate, hfind]
    rw [if_neg (by omega)]
    simp only [hfm]
    rw [if_neg (by rintro ⟨h, -, -⟩; simp at h; omega), hmape]

/-- Witness for C2: stocking out 999 of `P002` (quantity 8) is rejected and
leaves the initial inventory unchanged. -/
theorem C2_stockOut_witness :
    handleStockUpdate initialInventory StockType.stockOut ("P002") (some 999) ⟨2025, 12, 1⟩ =
      (initialInventory, StockOutcome.insufficientStock) :=
  (C2_stockOut initialInventory ("P002") itemP002 999 ⟨2025, 12, 1⟩ (by decide) (by decide)
    (by decide)).1 (by decide)

/-- Claim C8: for stock-in and stock-out alike, an amount that does not
parse to a positive integer is rejected with the invalid-amount toast and
the store is left completely unchanged; a stock-in of a positive integer
amount on an existing item (in a store with distinct ids) increments exactly
that item's quantity by the amount and refreshes its `lastUpdated`. -/
theorem C8_amount_validation :
    (∀ (store : List Item) (type : StockType) (itemId : String) (sel : Item)
        (amount : Option Int) (today : Date),
      store.find? (fun i => i.id == itemId) = some sel →
      (amount = none ∨ ∃ a, amount = some a ∧ a ≤ 0) →
      handleStockUpdate store type itemId amount today = (store, StockOutcome.invalidAmount)) ∧
    (∀ (store : List Item) (itemId : String) (item : Item) (amt : Int) (today : Date),
      (store.map Item.id).Nodup →
      store.find? (fun i => i.id == itemId) = some item → 0 < amt →
      handleStockUpdate store StockType.stockIn itemId (some amt) today =
        (store.map (fun i => if i.id == itemId then
            { i with quantity := i.quantity + amt, lastUpdated := today } else i),
         StockOutcome.committed
           { item with quantity := item.quantity + amt, lastUpdated := today })) := by
  constructor
  · rintro store type itemId sel amount today hfind (rfl | ⟨a, rfl, ha⟩)
    · simp [handleStockUpdate, hfind]
    · simp only [handleStockUpdate, hfind]
      rw [if_pos ha]
  · intro store itemId item amt today hnd hfind hpos
    have hmem : item ∈ store := List.mem_of_find?_eq_some hfind
    have hid : item.id = itemId := by
      have := List.find?_some hfind
      simpa using this
    have huniq : ∀ j ∈ store, j.id = itemId → j = item := fun j hj hjid =>
      eq_of_mem_of_same_id hnd hj hmem (hjid.trans hid.symm)
    have hpred : (fun (i : Item) => i.id == item.id) = (fun i => i.id == itemId) := by
      funext i
      rw [hid]
    have hpt : ∀ j ∈ store, stockApply item StockType.stockIn amt today j =
        if j.id == itemId then
          { j with quantity := j.quantity + amt, lastUpdated := today } else j := by
      intro j hj
      by_cases hjid : j.id = itemId
      · rw [if_pos (by simp [hjid]), huniq j hj hjid]
        exact stockApply_self_in item amt today
      · rw [if_neg (by simp [hjid]),
          stockApply_ne item StockType.stockIn amt today j (by rw [hid]; exact hjid)]
    have hmape : store.map (stockApply item StockType.stockIn amt today) =
        store.map (fun i => if i.id == itemId then
          { i with quantity := i.quantity + amt, lastUpdated := today } else i) :=
      List.map_congr_left hpt
    have hfm : (store.map (stockApply item StockType.stockIn amt today)).find?
        (fun i => i.id == item.id) =
        some { item with quantity := item.quantity + amt, lastUpdated := today } := by
      rw [find?_map_of_pres _ _ (fun i => by rw [stockApply_id]), hpred, hfind,
        Option.map_some', stockApply_self_in item amt today]
    simp only [handleStockUpdate, hfind]
    rw [if_neg (by omega)]
    simp only [hfm]
    rw [if_neg (by rintro ⟨h, -, -⟩; simp at h; omega), hmape]

theorem mem_updateFirst {p : Item → Bool} {f : Item → Item} :
    ∀ {l : List Item} {i : Item}, i ∈ updateFirst p f l → i ∈ l ∨ ∃ j ∈ l, i = f j := by
  intro l
  induction l with
  | nil => intro i hi; exact absurd hi (by simp [updateFirst])
  | cons a t ih =>
    intro i hi
    simp only [updateFirst] at hi
    by_cases hp : p a
    · rw [if_pos hp] at hi
      rcases List.mem_cons.mp hi with rfl | hit
      · exact Or.inr ⟨a, List.mem_cons_self a t, rfl⟩
      · exact Or.inl (List.mem_cons_of_mem a hit)
    · rw [if_neg hp] at hi
      rcases List.mem_cons.mp hi with rfl | hit
      · exact Or.inl (List.mem_cons_self i t)
      · rcases ih hit with h | ⟨j, hj, rfl⟩
        · exact Or.inl (List.mem_cons_of_mem a h)
        · exact Or.inr ⟨j, List.mem_cons_of_mem a hj, rfl⟩

theorem stockUpdate_fst_cases (s : List Item) (t : StockType) (itemId : String)
    (amount : Option Int) (td : Date) :
    (handleStockUpdate s t itemId amount td).1 = s ∨
    ∃ sel a, 0 < a ∧ amount = some a ∧
      (handleStockUpdate s t itemId amount td).1 = s.map (stockApply sel t a td) := by
  unfold handleStockUpdate
  split
  · exact Or.inl rfl
  · rename_i sel hsel
    split
    · exact Or.inl rfl
    · rename_i a
      split
      · exact Or.inl rfl
      · rename_i hle
        split
        · exact Or.inl rfl
        · rename_i after hafter
          split
          · exact Or.inl rfl
          · exact Or.inr ⟨sel, a, by omega, rfl, rfl⟩

theorem stockApply_quantity_cases (sel : Item) (t : StockType) (a : Int) (td : Date)
    (j : Item) :
    stockApply sel t a td j = j ∨
    (t = StockType.stockIn ∧
      stockApply sel t a td j = { j with quantity := j.quantity + a, lastUpdated := td }) ∨
    (t = StockType.stockOut ∧ 0 ≤ j.quantity - a ∧
      stockApply sel t a td j = { j with quantity := j.quantity - a, lastUpdated := td }) := by
  unfold stockApply
  split
  · split
    · exact Or.inl rfl
    · rename_i hcond
      cases t with
      | stockIn =>
        refine Or.inr (Or.inl ⟨rfl, ?_⟩)
        simp only [stockChange]
      | stockOut =>
        have hx : ¬ (j.quantity + stockChange StockType.stockOut a < 0) :=
          fun hx => hcond ⟨rfl, hx⟩
        simp only [stockChange] at hx
        refine Or.inr (Or.inr ⟨rfl, by omega, ?_⟩)
        simp only [stockChange]
        rw [show j.quantity + -a = j.quantity - a by omega]
  · exact Or.inl rfl

theorem stockUpdate_preserves_nonneg (s : List Item) (t : StockType) (itemId : String)
    (amount : Option Int) (td : Date) (h : ∀ i ∈ s, 0 ≤ i.quantity) :
    ∀ i ∈ (handleStockUpdate s t itemId amount td).1, 0 ≤ i.quantity := by
  rcases stockUpdate_fst_cases s t itemId amount td with heq | ⟨sel, a, hapos, -, heq⟩
  · rw [heq]; exact h
  · rw [heq]
    intro i hi
    obtain ⟨j, hj, rfl⟩ := List.mem_map.mp hi
    rcases stockApply_quantity_cases sel t a td j with he | ⟨-, he⟩ | ⟨-, hge, he⟩
    · rw [he]; exact h j hj
    · rw [he]
      show 0 ≤ j.quantity + a
      have := h j hj
      omega
    · rw [he]
      exact hge

theorem addItem_fst_cases (s : List Item) (d : Draft) (suffix : String) (today : Date) :
    (handleAddItem s d suffix today).1 = s ∨
    ∃ q, d.quantity = some q ∧
      (handleAddItem s d suffix today).1 =
        enforceReorderCap (s ++ [newItemOf d suffix today q]) := by
  unfold handleAddItem
  split
  · exact Or.inl rfl
  · split
    · exact Or.inl rfl
    · rename_i q hq
      exact Or.inr ⟨q, hq, rfl⟩

theorem setReorder_fst_cases (s : List Item) (itemId : String) (level : Option Int) :
    (setReorderLevel s itemId level).1 = s ∨
    ∃ l, level = some l ∧ 0 ≤ l ∧
      (setReorderLevel s itemId level).1 =
        updateFirst (fun i => i.id == itemId)
          (fun i => { i with reorderLevel := some (min l DEFAULT_REORDER_LEVEL) }) s := by
  unfold setReorderLevel
  split
  · exact Or.inl rfl
  · rename_i l
    split
    · exact Or.inl rfl
    · rename_i hneg
      split
      · exact Or.inl rfl
      · exact Or.inr ⟨l, rfl, by omega, rfl⟩

theorem archive_fst_cases (s : List Item) (itemId : String) :
    (handleArchive s itemId).1 = s ∨
    (handleArchive s itemId).1 = s.filter (fun i => !(i.id == itemId)) := by
  unfold handleArchive
  split
  · exact Or.inr rfl
  · exact Or.inl rfl

theorem applyOp_preserves_nonneg (s : List Item) (op : Op)
    (h : ∀ i ∈ s, 0 ≤ i.quantity) (hop : opQtyOk op = true) :
    ∀ i ∈ applyOp s op, 0 ≤ i.quantity := by
  cases op with
  | add d suffix today =>
    show ∀ i ∈ (handleAddItem s d suffix today).1, 0 ≤ i.quantity
    rcases addItem_fst_cases s d suffix today with heq | ⟨q, hq, heq⟩
    · rw [heq]; exact h
    · rw [heq]
      intro i hi
      obtain ⟨j, hj, rfl⟩ := List.mem_map.mp hi
      show 0 ≤ j.quantity
      rcases List.mem_append.mp hj with hjs | hjn
      · exact h j hjs
      · have hj' : j = newItemOf d suffix today q := by simpa using hjn
        rw [hj']
        show 0 ≤ q
        simp only [opQtyOk, hq] at hop
        exact of_decide_eq_true hop
  | stockIn itemId amount today =>
    exact stockUpdate_preserves_nonneg s StockType.stockIn itemId amount today h
  | stockOut itemId amount today =>
    exact stockUpdate_preserves_nonneg s StockType.stockOut itemId amount today h
  | setReorder itemId level =>
    show ∀ i ∈ (setReorderLevel s itemId level).1, 0 ≤ i.quantity
    rcases setReorder_fst_cases s itemId level with heq | ⟨l, -, -, heq⟩
    · rw [heq]; exact h
    · rw [heq]
      intro i hi
      rcases mem_updateFirst hi with his | ⟨j, hj, rfl⟩
      · exact h i his
      · exact h j hj
  | archive itemId =>
    show ∀ i ∈ (handleArchive s itemId).1, 0 ≤ i.quantity
    rcases archive_fst_cases s itemId with heq | heq <;> rw [heq]
    · exact h
    · intro i hi
      exact h i (List.mem_of_mem_filter hi)

theorem applyOps_nonneg : ∀ (ops : List Op) (s : List Item),
    (∀ i ∈ s, 0 ≤ i.quantity) → (∀ op ∈ ops, opQtyOk op = true) →
    ∀ i ∈ applyOps s ops, 0 ≤ i.quantity := by
  intro ops
  induction ops with
  | nil => intro s h _; exact h
  | cons op rest ih =>
    intro s h hops
    exact ih (applyOp s op)
      (applyOp_preserves_nonneg s op h (hops op (List.mem_cons_self op rest)))
      (fun o ho => hops o (List.mem_cons_of_mem op ho))

/-- Claim C1 (counterexample): the quantity invariant is violated from the
initial inventory in one step — `handleAddItem` accepts a draft whose parsed
quantity is `-5` (it only checks `isNaN`), so a reachable state contains a
negative quantity. -/
theorem C1_counterexample :
    ¬ (∀ i ∈ applyOps initialInventory [Op.add dNegQty ("0001") ⟨2025, 12, 1⟩],
        0 ≤ i.quantity) := by
  decide

/-- Claim C1 (amended): along any operation sequence from the initial
inventory in which every add-draft carries a non-negative parsed quantity,
every item's quantity stays non-negative — stock-outs that would go negative
are rejected with no partial application, but `handleAddItem` itself never
checks the sign of the quantity. -/
theorem C1_nonneg_amended (ops : List Op) (h : ∀ op ∈ ops, opQtyOk op = true) :
    ∀ i ∈ applyOps initialInventory ops, 0 ≤ i.quantity :=
  applyOps_nonneg ops initialInventory (by decide) h

/-- Witness for C1 (amended): a stock-out of 3 on `P002` keeps all
quantities non-negative. -/
theorem C1_nonneg_amended_witness :
    (∀ op ∈ [Op.stockOut ("P002") (some 3) ⟨2025, 12, 1⟩], opQtyOk op = true) ∧
    (∀ i ∈ applyOps initialInventory [Op.stockOut ("P002") (some 3) ⟨2025, 12, 1⟩],
      0 ≤ i.quantity) :=
  ⟨by decide, C1_nonneg_amended [Op.stockOut ("P002") (some 3) ⟨2025, 12, 1⟩] (by decide)⟩

theorem reorderOkB_of_some {i : Item} {v : Int} (h : i.reorderLevel = some v)
    (h0 : 0 ≤ v) (h1 : v ≤ DEFAULT_REORDER_LEVEL) : reorderOkB i = true := by
  simp [reorderOkB, h, h0, h1]

theorem applyOp_preserves_reorder (s : List Item) (op : Op)
    (h : ∀ i ∈ s, reorderOkB i = true) :
    ∀ i ∈ applyOp s op, reorderOkB i = true := by
  cases op with
  | add d suffix today =>
    show ∀ i ∈ (handleAddItem s d suffix today).1, reorderOkB i = true
    rcases addItem_fst_cases s d suffix today with heq | ⟨q, -, heq⟩
    · rw [heq]; exact h
    · rw [heq]
      intro i hi
      obtain ⟨j, -, rfl⟩ := List.mem_map.mp hi
      exact reorderOkB_of_some rfl (clampReorder_mem j.reorderLevel).1
        (clampReorder_mem j.reorderLevel).2
  | stockIn itemId amount today =>
    show ∀ i ∈ (handleStockUpdate s StockType.stockIn itemId amount today).1,
      reorderOkB i = true
    rcases stockUpdate_fst_cases s StockType.stockIn itemId amount today with
      heq | ⟨sel, a, -, -, heq⟩
    · rw [heq]; exact h
    · rw [heq]
      intro i hi
      obtain ⟨j, hj, rfl⟩ := List.mem_map.mp hi
      rw [show reorderOkB (stockApply sel StockType.stockIn a today j) = reorderOkB j by
        unfold reorderOkB; rw [stockApply_reorderLevel]]
      exact h j hj
  | stockOut itemId amount today =>
    show ∀ i ∈ (handleStockUpdate s StockType.stockOut itemId amount today).1,
      reorderOkB i = true
    rcases stockUpdate_fst_cases s StockType.stockOut itemId amount today with
      heq | ⟨sel, a, -, -, heq⟩
    · rw [heq]; exact h
    · rw [heq]
      intro i hi
      obtain ⟨j, hj, rfl⟩ := List.mem_map.mp hi
      rw [show reorderOkB (stockApply sel StockType.stockOut a today j) = reorderOkB j by
        unfold reorderOkB; rw [stockApply_reorderLevel]]
      exact h j hj
  | setReorder itemId level =>
    show ∀ i ∈ (setReorderLevel s itemId level).1, reorderOkB i = true
    rcases setReorder_fst_cases s itemId level with heq | ⟨l, -, hl0, heq⟩
    · rw [heq]; exact h
    · rw [heq]
      intro i hi
      rcases mem_updateFirst hi with his | ⟨j, -, rfl⟩
      · exact h i his
      · exact reorderOkB_of_some rfl (le_min hl0 (by norm_num [DEFAULT_REORDER_LEVEL]))
          (min_le_right _ _)
  | archive itemId =>
    show ∀ i ∈ (handleArchive s itemId).1, reorderOkB i = true
    rcases archive_fst_cases s itemId with heq | heq <;> rw [heq]
    · exact h
    · intro i hi
      exact h i (List.mem_of_mem_filter hi)

theorem applyOps_reorder : ∀ (ops : List Op) (s : List Item),
    (∀ i ∈ s, reorderOkB i = true) → ∀ i ∈ applyOps s ops, reorderOkB i = true := by
  intro ops
  induction ops with
  | nil => intro s h; exact h
  | cons op rest ih =>
    intro s h
    exact ih (applyOp s op) (applyOp_preserves_reorder s op h)

/-- Claim C4: in every state reachable from the initial inventory, every
item's reorder level is present and lies in `[0, DEFAULT_REORDER_LEVEL]`;
an invalid or missing reorder input defaults to the cap in `handleAddItem`'s
clamp and in `enforceReorderCap`'s per-item clamp, and an over-cap
`setReorderLevel` input is stored as exactly the cap. -/
theorem C4_reorder_cap :
    (∀ ops : List Op, ∀ i ∈ applyOps initialInventory ops, reorderOkB i = true) ∧
    (∀ r : Option Int, (r = none ∨ ∃ v, r = some v ∧ v < 0) →
      reorderLevelValue r = DEFAULT_REORDER_LEVEL ∧
      clampReorder r = DEFAULT_REORDER_LEVEL) ∧
    (∀ (store : List Item) (itemId : String) (l : Int), DEFAULT_REORDER_LEVEL ≤ l →
      (setReorderLevel store itemId (some l)).1 =
        updateFirst (fun i => i.id == itemId)
          (fun i => { i with reorderLevel := some DEFAULT_REORDER_LEVEL }) store) := by
  refine ⟨?_, ?_, ?_⟩
  · intro ops
    exact applyOps_reorder ops initialInventory (by decide)
  · rintro r (rfl | ⟨v, rfl, hv⟩)
    · exact ⟨rfl, rfl⟩
    · constructor
      · simp only [reorderLevelValue]
        rw [if_pos hv]
      · simp only [clampReorder]
        rw [if_pos hv]
  · intro store itemId l hl
    have h0 : (0 : Int) ≤ l :=
      le_trans (by norm_num [DEFAULT_REORDER_LEVEL]) hl
    have hmin : min l DEFAULT_REORDER_LEVEL = DEFAULT_REORDER_LEVEL := min_eq_right hl
    simp only [setReorderLevel]
    rw [if_neg (by omega)]
    split
    · rename_i hf
      exact (updateFirst_eq_of_none _ _ store hf).symm
    · rw [hmin]

/-- Witness for C4: after `setReorderLevel('T003', 500)` every reachable
reorder level is in range, a missing input defaults to the cap, and the 500
is stored as the cap 20. -/
theorem C4_reorder_cap_witness :
    (∀ i ∈ applyOps initialInventory [Op.setReorder ("T003") (some 500)],
      reorderOkB i = true) ∧
    reorderLevelValue none = DEFAULT_REORDER_LEVEL ∧
    (setReorderLevel initialInventory ("T003") (some 500)).1 =
      updateFirst (fun i => i.id == "T003")
        (fun i => { i with reorderLevel := some DEFAULT_REORDER_LEVEL })
        initialInventory :=
  ⟨C4_reorder_cap.1 [Op.setReorder ("T003") (some 500)],
   (C4_reorder_cap.2.1 none (Or.inl rfl)).1,
   C4_reorder_cap.2.2 initialInventory ("T003") 500 (by decide)⟩

theorem idsOf_enforce (l : List Item) : idsOf (enforceReorderCap l) = idsOf l := by
  simp only [idsOf, enforceReorderCap, List.map_map]
  rfl

theorem idsOf_updateFirst (p : Item → Bool) (f : Item → Item) (hf : ∀ i, (f i).id = i.id) :
    ∀ l : List Item, idsOf (updateFirst p f l) = idsOf l := by
  intro l
  induction l with
  | nil => rfl
  | cons a t ih =>
    simp only [updateFirst]
    by_cases hp : p a
    · rw [if_pos hp]
      simp only [idsOf, List.map_cons, hf a]
    · rw [if_neg hp]
      simp only [idsOf, List.map_cons] at ih ⊢
      rw [ih]

theorem idsOf_map_stockApply (s : List Item) (sel : Item) (t : StockType) (a : Int)
    (td : Date) : idsOf (s.map (stockApply sel t a td)) = idsOf s := by
  simp only [idsOf, List.map_map]
  exact List.map_congr_left (fun j _ => stockApply_id sel t a td j)

theorem idsOf_stockUpdate (s : List Item) (t : StockType) (itemId : String)
    (amount : Option Int) (td : Date) :
    idsOf (handleStockUpdate s t itemId amount td).1 = idsOf s := by
  rcases stockUpdate_fst_cases s t itemId amount td with heq | ⟨sel, a, -, -, heq⟩
  · rw [heq]
  · rw [heq]
    exact idsOf_map_stockApply s sel t a td

theorem idsOf_filter (l : List Item) (itemId : String) :
    idsOf (l.filter (fun i => !(i.id == itemId))) =
      (idsOf l).filter (fun x => !(x == itemId)) := by
  induction l with
  | nil => rfl
  | cons a t ih =>
    simp only [idsOf] at ih ⊢
    cases hpa : (a.id == itemId) with
    | true => simp [List.filter_cons, hpa, ih]
    | false => simp [List.filter_cons, hpa, ih]

theorem applyOp_ids_cases (s : List Item) (op : Op) :
    idsOf (applyOp s op) = idsOf s ∨
    (∃ nid, idsOf (applyOp s op) = idsOf s ++ [nid]) ∨
    (∃ rid, idsOf (applyOp s op) = (idsOf s).filter (fun x => !(x == rid))) := by
  cases op with
  | add d suffix today =>
    have ha : applyOp s (Op.add d suffix today) = (handleAddItem s d suffix today).1 := rfl
    rw [ha]
    rcases addItem_fst_cases s d suffix today with heq | ⟨q, -, heq⟩
    · rw [heq]
      exact Or.inl rfl
    · rw [heq, idsOf_enforce]
      refine Or.inr (Or.inl ⟨genId d.category suffix, ?_⟩)
      simp [idsOf, newItemOf]
  | stockIn itemId amount today =>
    exact Or.inl (idsOf_stockUpdate s StockType.stockIn itemId amount today)
  | stockOut itemId amount today =>
    exact Or.inl (idsOf_stockUpdate s StockType.stockOut itemId amount today)
  | setReorder itemId level =>
    have ha : applyOp s (Op.setReorder itemId level) = (setReorderLevel s itemId level).1 := rfl
    rw [ha]
    rcases setReorder_fst_cases s itemId level with heq | ⟨l, -, -, heq⟩
    · rw [heq]
      exact Or.inl rfl
    · rw [heq]
      exact Or.inl (idsOf_updateFirst (fun i => i.id == itemId)
        (fun i => { i with reorderLevel := some (min l DEFAULT_REORDER_LEVEL) })
        (fun i => rfl) s)
  | archive itemId =>
    have ha : applyOp s (Op.archive itemId) = (handleArchive s itemId).1 := rfl
    rw [ha]
    rcases archive_fst_cases s itemId with heq | heq
    · rw [heq]
      exact Or.inl rfl
    · rw [heq, idsOf_filter]
      exact Or.inr (Or.inr ⟨itemId, rfl⟩)

theorem applyOp_preserves_nodup (s : List Item) (op : Op) (hnd : (idsOf s).Nodup)
    (hf : freshOp s op = true) : (idsOf (applyOp s op)).Nodup := by
  cases op with
  | add d suffix today =>
    have ha : applyOp s (Op.add d suffix today) = (handleAddItem s d suffix today).1 := rfl
    rw [ha]
    cases hd : draftMissing d with
    | true =>
      rw [show (handleAddItem s d suffix today).1 = s by simp [handleAddItem, hd]]
      exact hnd
    | false =>
      cases hq : d.quantity with
      | none => simp [draftMissing, hq] at hd
      | some q =>
        rw [show (handleAddItem s d suffix today).1 =
            enforceReorderCap (s ++ [newItemOf d suffix today q]) by
          simp [handleAddItem, hd, hq]]
        rw [idsOf_enforce,
          show idsOf (s ++ [newItemOf d suffix today q]) =
            idsOf s ++ [genId d.category suffix] by simp [idsOf, newItemOf]]
        rw [List.nodup_append]
        refine ⟨hnd, List.nodup_singleton _, ?_⟩
        intro a has hag
        have hag' : a = genId d.category suffix := by simpa using hag
        subst hag'
        simp only [freshOp, hd, Bool.false_or] at hf
        have hcontains : (idsOf s).contains (genId d.category suffix) = true := by
          have : List.elem (genId d.category suffix) (idsOf s) = true := List.elem_iff.mpr has
          exact this
        rw [hcontains] at hf
        exact absurd hf (by simp)
  | stockIn itemId amount today =>
    have ha : applyOp s (Op.stockIn itemId amount today) =
        (handleStockUpdate s StockType.stockIn itemId amount today).1 := rfl
    rw [ha, idsOf_stockUpdate]
    exact hnd
  | stockOut itemId amount today =>
    have ha : applyOp s (Op.stockOut itemId amount today) =
        (handleStockUpdate s StockType.stockOut itemId amount today).1 := rfl
    rw [ha, idsOf_stockUpdate]
    exact hnd
  | setReorder itemId level =>
    have ha : applyOp s (Op.setReorder itemId level) = (setReorderLevel s itemId level).1 := rfl
    rw [ha]
    rcases setReorder_fst_cases s itemId level with heq | ⟨l, -, -, heq⟩
    · rw [heq]
      exact hnd
    · rw [heq, idsOf_updateFirst (fun i => i.id == itemId)
        (fun i => { i with reorderLevel := some (min l DEFAULT_REORDER_LEVEL) })
        (fun i => rfl) s]
      exact hnd
  | archive itemId =>
    have ha : applyOp s (Op.archive itemId) = (handleArchive s itemId).1 := rfl
    rw [ha]
    rcases archive_fst_cases s itemId with heq | heq
    · rw [heq]
      exact hnd
    · rw [heq, idsOf_filter]
      exact List.Nodup.filter _ hnd

theorem applyOps_nodup : ∀ (ops : List Op) (s : List Item), (idsOf s).Nodup →
    freshAlong s ops = true → (idsOf (applyOps s ops)).Nodup := by
  intro ops
  induction ops with
  | nil => intro s h _; exact h
  | cons op rest ih =>
    intro s h hf
    simp only [freshAlong, Bool.and_eq_true] at hf
    exact ih (applyOp s op) (applyOp_preserves_nodup s op h hf.1) hf.2

/-- Claim C5 (counterexample): id uniqueness is violated from the initial
inventory — two adds in the `Tools` category whose creation timestamps share
the same last four digits generate the same id `T1234`, so a reachable state
holds two items with equal ids. -/
theorem C5_counterexample :
    ¬ (idsOf (applyOps initialInventory
        [Op.add dToolsA ("1234") ⟨2025, 12, 1⟩, Op.add dToolsB ("1234") ⟨2025, 12, 1⟩])).Nodup := by
  decide

/-- Claim C5 (amended): ids are never reassigned — every operation leaves
the id list unchanged, appends the one generated id, or filters out the
archived id — and ids stay pairwise distinct from the initial inventory
provided every add's generated id (category initial plus timestamp-derived
suffix) is fresh when it runs, a condition the script does not check. -/
theorem C5_ids_amended :
    (∀ (s : List Item) (op : Op),
      idsOf (applyOp s op) = idsOf s ∨
      (∃ nid, idsOf (applyOp s op) = idsOf s ++ [nid]) ∨
      (∃ rid, idsOf (applyOp s op) = (idsOf s).filter (fun x => !(x == rid)))) ∧
    (∀ ops : List Op, freshAlong initialInventory ops = true →
      (idsOf (applyOps initialInventory ops)).Nodup) :=
  ⟨applyOp_ids_cases, fun ops hf => applyOps_nodup ops initialInventory (by decide) hf⟩

/-- Witness for C5 (amended): two adds with distinct timestamp suffixes keep
the ids pairwise distinct. -/
theorem C5_ids_amended_witness :
    freshAlong initialInventory
      [Op.add dToolsA ("1111") ⟨2025, 12, 1⟩, Op.add dToolsB ("2222") ⟨2025, 12, 1⟩] = true ∧
    (idsOf (applyOps initialInventory
      [Op.add dToolsA ("1111") ⟨2025, 12, 1⟩, Op.add dToolsB ("2222") ⟨2025, 12, 1⟩])).Nodup :=
  ⟨by decide, C5_ids_amended.2
    [Op.add dToolsA ("1111") ⟨2025, 12, 1⟩, Op.add dToolsB ("2222") ⟨2025, 12, 1⟩] (by decide)⟩

theorem renderFilter_eq_specFilter (vs : ViewState) (i : Item) :
    renderFilter vs i = specFilter vs i := by
  by_cases hq : vs.searchQuery = ""
  · have h1 : lowerStr vs.searchQuery = "" := by rw [hq]; rfl
    have h2 : ∀ s : String, strIncludes s ("") = true := fun s => containsSub_nil s.data
    have h3 : lowerStr ("") = "" := rfl
    simp [renderFilter, specFilter, hq, h1, h2, h3]
  · have h1 : (vs.searchQuery == "") = false := by simp [hq]
    simp only [renderFilter, specFilter, h1, Bool.false_or]
    exact Bool.and_comm _ _

theorem keyLe_eq_specKeyLe (k : SortKey) (a b : Item) : keyLe k a b = specKeyLe k a b := by
  cases k <;> rfl

theorem jsLe_eq_specLe (vs : ViewState) : jsLe vs = specLe vs := by
  funext a b
  simp only [jsLe, specLe]
  cases vs.sortOrder
  · exact keyLe_eq_specKeyLe vs.sortBy a b
  · exact keyLe_eq_specKeyLe vs.sortBy b a

theorem renderRow_eq_specRow (i : Item) (h : 0 ≤ i.quantity) : renderRow i = specRow i := by
  unfold renderRow specRow
  congr 1
  unfold getStockStatus
  by_cases h0 : i.quantity = 0
  · rw [if_pos h0, if_pos h0]
  · rw [if_neg h0, if_neg h0]
    by_cases h20 : i.quantity < 20
    · rw [if_pos h20, if_pos ⟨by omega, h20⟩]
    · rw [if_neg h20, if_neg (by rintro ⟨-, hx⟩; omega)]

/-- Claim C6: on well-formed items (non-negative quantities, per the data
model), the `renderTable` pipeline computes exactly the projection the spec
describes — the items passing the category-and-search filter, stably sorted
by the chosen column (dates by calendar value, strings case-insensitively,
numbers numerically, ascending or descending, ties keeping the filter-stage
order, which the shared stable insertion sort provides by construction),
each row carrying the derived stock status and reorder flag; moreover the
projected rows are a permutation of exactly the filter-passing items. -/
theorem C6_projection (items : List Item) (vs : ViewState)
    (h : ∀ i ∈ items, 0 ≤ i.quantity) :
    renderRows items vs = projectSpec items vs ∧
    List.Perm ((renderRows items vs).map Row.item) (items.filter (renderFilter vs)) := by
  have hfil : items.filter (renderFilter vs) = items.filter (specFilter vs) :=
    List.filter_congr (fun x _ => renderFilter_eq_specFilter vs x)
  constructor
  · unfold renderRows projectSpec
    rw [← hfil, ← jsLe_eq_specLe vs]
    apply List.map_congr_left
    intro a ha
    have ha' : a ∈ items.filter (renderFilter vs) :=
      (insertionSortB_perm (jsLe vs) (items.filter (renderFilter vs))).mem_iff.mp ha
    exact renderRow_eq_specRow a (h a (List.mem_of_mem_filter ha'))
  · have hmap : (renderRows items vs).map Row.item =
        insertionSortB (jsLe vs) (items.filter (renderFilter vs)) := by
      unfold renderRows
      rw [List.map_map, show (Row.item ∘ renderRow) = id from rfl]
      exact List.map_id _
    rw [hmap]
    exact insertionSortB_perm (jsLe vs) (items.filter (renderFilter vs))

/-- Witness for C6: the initial inventory projected by ascending quantity. -/
theorem C6_projection_witness :
    (∀ i ∈ initialInventory, 0 ≤ i.quantity) ∧
    renderRows initialInventory vsQuantityAsc = projectSpec initialInventory vsQuantityAsc :=
  ⟨by decide, (C6_projection initialInventory vsQuantityAsc (by decide)).1⟩

/-- Witness for C8: a stock-in of 0 on `T003` is rejected with no change,
and a stock-in of 7 on `T003` commits the increment. -/
theorem C8_amount_validation_witness :
    handleStockUpdate initialInventory StockType.stockIn ("T003") (some 0) ⟨2025, 12, 1⟩ =
      (initialInventory, StockOutcome.invalidAmount) ∧
    handleStockUpdate initialInventory StockType.stockIn ("T003") (some 7) ⟨2025, 12, 1⟩ =
      (initialInventory.map (fun i => if i.id == "T003" then
          { i with quantity := i.quantity + 7, lastUpdated := ⟨2025, 12, 1⟩ } else i),
       StockOutcome.committed
         { itemT003 with quantity := itemT003.quantity + 7, lastUpdated := ⟨2025, 12, 1⟩ }) :=
  ⟨C8_amount_validation.1 initialInventory StockType.stockIn ("T003") itemT003 (some 0)
      ⟨2025, 12, 1⟩ (by decide) (Or.inr ⟨0, rfl, by omega⟩),
   C8_amount_validation.2 initialInventory ("T003") itemT003 7 ⟨2025, 12, 1⟩ (by decide)
      (by decide) (by omega)⟩

end EMC
